import Mathlib

/-!
# Verification of the Orion statistics core

A shallow embedding of the variable-type inference and
descriptive-statistics / group-comparison engine of the Orion backend
(`backend/app/services/stats_service.py` and
`backend/app/services/data_service.py`), together with proofs about it.

Modelling conventions:
* a dataframe cell is `Cell`: a finite numeric value, a text value, or a
  missing entry (`na` models NaN/None);
* Python floats flowing through the statistics pipeline are modelled by
  `PyF`: a finite rational or the non-finite marker `nf` (NaN; float
  overflow to infinity is outside the model, since rationals do not
  overflow);
* calls into scipy / numpy routines whose numeric output is irrational or
  whose internals are outside the repository (square roots, t critical
  values, the normality / homogeneity / comparison tests, string-to-number
  parsing) are abstracted as fields of a `SciOracles` parameter; theorems
  quantify over the oracles;
* the free-text `interpretation` / `practical_explanation` fields of a
  comparison record are presentation strings and are not modelled.
-/

namespace Orion

/-- A dataframe cell: numeric value, text value, or missing (NaN/None). -/
inductive Cell
  | num (q : ℚ)
  | str (s : String)
  | na
deriving DecidableEq, Repr

/-- A Python float value reaching the statistics pipeline: a finite
rational or the non-finite marker `nf` (NaN). -/
inductive PyF
  | fin (q : ℚ)
  | nf
deriving DecidableEq, Repr

/-- Float multiplication; NaN propagates. -/
def PyF.mul : PyF → PyF → PyF
  | .fin a, .fin b => .fin (a * b)
  | _, _ => .nf

/-- Float subtraction; NaN propagates. -/
def PyF.sub : PyF → PyF → PyF
  | .fin a, .fin b => .fin (a - b)
  | _, _ => .nf

/-- Float addition; NaN propagates. -/
def PyF.add : PyF → PyF → PyF
  | .fin a, .fin b => .fin (a + b)
  | _, _ => .nf

/-- Float division; division by zero and NaN operands give a non-finite
result. -/
def PyF.div : PyF → PyF → PyF
  | .fin a, .fin b => if b = 0 then .nf else .fin (a / b)
  | _, _ => .nf

/-- Python comparison `v > c` (False when v is NaN). -/
def pyGtQ : PyF → ℚ → Bool
  | .fin a, c => decide (c < a)
  | .nf, _ => false

/-- Python comparison `v < c` (False when v is NaN). -/
def pyLtQ : PyF → ℚ → Bool
  | .fin a, c => decide (a < c)
  | .nf, _ => false

/-- Python comparison `v != c` (True when v is NaN). -/
def pyNeQ : PyF → ℚ → Bool
  | .fin a, c => decide (a ≠ c)
  | .nf, _ => true

/-- Python truthiness of a float: `0.0` is falsy, every other float
(NaN included) is truthy. -/
def PyF.truthy : PyF → Bool
  | .fin a => decide (a ≠ 0)
  | .nf => true

/-- Round a rational to the nearest integer, ties to even
(the rounding mode of Python's built-in `round`). -/
def rInt (x : ℚ) : ℤ :=
  let f := ⌊x⌋
  let r := x - f
  if r < 1 / 2 then f
  else if 1 / 2 < r then f + 1
  else if 2 ∣ f then f else f + 1

/-- Python `round(x, d)` on the rational model. -/
def roundQ (d : ℕ) (x : ℚ) : ℚ :=
  (rInt (x * 10 ^ d) : ℚ) / 10 ^ d

/-- `stats_service._safe_round`: `None` passes through, a non-finite value
is suppressed to `None`, a finite value is rounded to `d` decimals.
(The `float(value)` conversion never fails on the numeric values modelled
here.) -/
def safeRound (value : Option PyF) (d : ℕ) : Option ℚ :=
  match value with
  | none => none
  | some .nf => none
  | some (.fin q) => some (roundQ d q)

/-- Oracles for library routines (scipy / numpy / pandas internals) used
by the statistics service.  `shapiroP`, `normaltestP`, `leveneP` return
the test's p-value, `none` modelling an exception raised by the routine.
`ttestInd`'s third argument is the `equal_var` flag.  Each comparison test
returns the pair (statistic, p-value). -/
structure SciOracles where
  sqrtQ : ℚ → ℚ
  tCrit : ℚ → ℕ → ℚ
  shapiroP : List ℚ → Option ℚ
  normaltestP : List ℚ → Option ℚ
  leveneP : List (List ℚ) → Option ℚ
  parseNum : String → Option ℚ
  ttestInd : List ℚ → List ℚ → Bool → PyF × PyF
  mannwhitneyu : List ℚ → List ℚ → PyF × PyF
  fOneway : List (List ℚ) → PyF × PyF
  kruskal : List (List ℚ) → PyF × PyF

/-- `math.sqrt` / numpy sqrt lifted to `PyF` (negative input gives NaN). -/
def pySqrt (o : SciOracles) : PyF → PyF
  | .fin a => if a < 0 then .nf else .fin (o.sqrtQ a)
  | .nf => .nf

/-! ## Elementary list statistics (pandas/numpy semantics) -/

/-- Arithmetic mean of a list of rationals (callers guarantee nonempty). -/
def meanQ (l : List ℚ) : ℚ := l.sum / l.length

/-- Sum of squared deviations from the mean. -/
def ssdQ (l : List ℚ) : ℚ := (l.map (fun x => (x - meanQ l) ^ 2)).sum

/-- Sample variance, `ddof=1` (callers guarantee length ≥ 2). -/
def sampleVarQ (l : List ℚ) : ℚ := ssdQ l / (l.length - 1 : ℕ)

/-- `pandas.Series.var()` (`ddof=1`): NaN for fewer than two entries. -/
def pdVar (l : List ℚ) : PyF :=
  if 2 ≤ l.length then .fin (ssdQ l / (l.length - 1 : ℕ)) else .nf

/-- `pandas.Series.std()`: square root of the `ddof=1` variance. -/
def pdStd (o : SciOracles) (l : List ℚ) : PyF := pySqrt o (pdVar l)

/-- Ascending sort. -/
def sortQ (l : List ℚ) : List ℚ := l.mergeSort (fun a b => decide (a ≤ b))

/-- `pandas.Series.median()`: middle element, or mean of the two middle
elements, of the sorted list (callers guarantee nonempty). -/
def medianQ (l : List ℚ) : ℚ :=
  let s := sortQ l
  let n := s.length
  if n % 2 = 1 then s.getD (n / 2) 0
  else (s.getD (n / 2 - 1) 0 + s.getD (n / 2) 0) / 2

/-- `pandas.Series.quantile(p)` with linear interpolation
(callers guarantee nonempty, 0 ≤ p ≤ 1). -/
def quantileQ (l : List ℚ) (p : ℚ) : ℚ :=
  let s := sortQ l
  let n := s.length
  let h : ℚ := ((n : ℚ) - 1) * p
  let i : ℕ := ⌊h⌋.toNat
  let lo := s.getD i 0
  let hi := s.getD (i + 1) lo
  lo + (h - (i : ℚ)) * (hi - lo)

/-- Number of occurrences of `x` in `l`. -/
def countOcc (l : List ℚ) (x : ℚ) : ℕ := (l.filter (fun y => decide (y = x))).length

/-- `scipy.stats.mode`: the smallest value of maximal multiplicity
(`none` only for an empty list). -/
def modeQ (l : List ℚ) : Option ℚ :=
  (sortQ l.dedup).foldl
    (fun best x =>
      match best with
      | none => some x
      | some b => if countOcc l b < countOcc l x then some x else some b)
    none

/-- `pandas.Series.skew()` (adjusted Fisher-Pearson, as in
`pandas.core.nanops.nanskew`); zero second moment gives 0.
Callers guarantee length ≥ 3. -/
def pdSkew (o : SciOracles) (l : List ℚ) : PyF :=
  let n : ℚ := l.length
  let d := l.map (fun x => x - meanQ l)
  let m2 := (d.map (fun x => x ^ 2)).sum
  let m3 := (d.map (fun x => x ^ 3)).sum
  if m2 = 0 then .fin 0
  else PyF.div (.fin (n * o.sqrtQ (n - 1) / (n - 2) * m3)) (.fin (m2 * o.sqrtQ m2))

/-- `pandas.Series.kurtosis()` (adjusted excess kurtosis, as in
`pandas.core.nanops.nankurt`); zero denominator gives 0.
Callers guarantee length ≥ 4. -/
def pdKurt (l : List ℚ) : PyF :=
  let n : ℚ := l.length
  let d := l.map (fun x => x - meanQ l)
  let m2 := (d.map (fun x => x ^ 2)).sum
  let m4 := (d.map (fun x => x ^ 4)).sum
  if m2 = 0 then .fin 0
  else .fin (n * (n + 1) * (n - 1) * m4 / ((n - 2) * (n - 3) * m2 ^ 2)
    - 3 * (n - 1) ^ 2 / ((n - 2) * (n - 3)))

/-! ## Type classifier (`data_service.detect_variable_type`) -/

/-- Pandas storage dtypes relevant to the classifier. -/
inductive Dtype
  | obj
  | category
  | int64
  | float64
  | boolDt
  | datetime64
deriving DecidableEq, Repr

/-- `pandas.api.types.is_numeric_dtype`. -/
def isNumericDtype : Dtype → Bool
  | .int64 => true
  | .float64 => true
  | .boolDt => true
  | _ => false

/-- A pandas Series: a storage dtype and the cell values. -/
structure PdSeries where
  dtype : Dtype
  data : List Cell
deriving Repr

/-- The numeric entries of a series after `dropna()`. -/
def seriesNonNull (s : PdSeries) : List ℚ :=
  s.data.filterMap (fun c => match c with | .num q => some q | _ => none)

/-- `settings.DISCRETE_THRESHOLD` (config.py). -/
def DISCRETE_THRESHOLD : ℕ := 30

/-- `settings.DISCRETE_RATIO` (config.py). -/
def discreteRatioQ : ℚ := 2 / 100

/-- `data_service.detect_variable_type`. -/
def detect_variable_type (s : PdSeries) : String :=
  if s.dtype = .obj ∨ s.dtype = .category then "categorical"
  else if isNumericDtype s.dtype then
    let nonNull := seriesNonNull s
    if nonNull.length = 0 then "continuous"
    else
      let uniqueCount := nonNull.dedup.length
      let uniqueRatio : ℚ := (uniqueCount : ℚ) / (nonNull.length : ℚ)
      if uniqueCount ≤ DISCRETE_THRESHOLD ∨ uniqueRatio ≤ discreteRatioQ
      then "discrete" else "continuous"
  else "categorical"

/-! ## Group-label normalization (`stats_service._normalize_group_value`) -/

/-- Python `str.split()` on a character list: split on runs of whitespace,
dropping empty pieces.  The accumulator holds the current word reversed. -/
def splitWsAux : List Char → List Char → List (List Char)
  | [], acc => if acc = [] then [] else [acc.reverse]
  | c :: cs, acc =>
    if c.isWhitespace then
      if acc = [] then splitWsAux cs [] else acc.reverse :: splitWsAux cs []
    else splitWsAux cs (c :: acc)

/-- Python `s.split()` (whitespace-run splitting) on a string. -/
def pySplit (s : String) : List (List Char) := splitWsAux s.toList []

/-- Python `" ".join(words)` on character lists. -/
def joinWs : List (List Char) → List Char
  | [] => []
  | [w] => w
  | w :: ws => w ++ ' ' :: joinWs ws

/-- `stats_service._normalize_group_value`: missing passes through,
text is whitespace-collapsed (empty-after-trim becomes missing),
other values pass through unchanged. -/
def normalizeGroupValue : Cell → Cell
  | .na => .na
  | .str s =>
    let cleaned := joinWs (pySplit s)
    if cleaned = [] then .na else .str (String.mk cleaned)
  | .num q => .num q

/-- `stats_service.normalize_group_columns`, restricted to one column's
values: on a textual (object/string/categorical dtype) column every value
is normalized, any other column is left unchanged. -/
def normalizeGroupSeries (textual : Bool) (col : List Cell) : List Cell :=
  if textual then col.map normalizeGroupValue else col

/-! ## Filter engine (`data_service.apply_filters`) -/

/-- `schemas.FilterCondition`: a column key and the allowed values. -/
structure FilterCondition where
  col_key : String
  values : List Cell
deriving DecidableEq, Repr

/-- A dataframe: column names and rows (a row assigns a cell to every
column name). -/
structure Table where
  cols : List String
  rows : List (String → Cell)

/-- `data_service.apply_filters`: each condition whose column exists and
whose value set is nonempty (Python truthiness of the list) keeps exactly
the rows whose cell is a member of the value set. -/
def apply_filters (df : Table) (filters : List FilterCondition) : Table :=
  filters.foldl
    (fun acc f =>
      if f.col_key ∈ acc.cols ∧ f.values ≠ [] then
        { acc with rows := acc.rows.filter (fun r => decide (r f.col_key ∈ f.values)) }
      else acc)
    df

/-- Whether a filter condition is active for a given column list. -/
def condActive (cols : List String) (f : FilterCondition) : Bool :=
  decide (f.col_key ∈ cols) && decide (f.values ≠ [])

/-- The row predicate realized by a filter list over a fixed column list. -/
def rowPass (cols : List String) (filters : List FilterCondition)
    (r : String → Cell) : Bool :=
  filters.all (fun f => !condActive cols f || decide (r f.col_key ∈ f.values))

/-! ## Column statistics (`stats_service.calculate_column_stats`) -/

/-- `round` lifted to `PyF` (Python `round(NaN, d)` is NaN). -/
def pyRound (d : ℕ) : PyF → PyF
  | .fin q => .fin (roundQ d q)
  | .nf => .nf

/-- Minimum of a list (callers guarantee nonempty). -/
def minQ (l : List ℚ) : ℚ := l.foldl min (l.headD 0)

/-- Maximum of a list (callers guarantee nonempty). -/
def maxQ (l : List ℚ) : ℚ := l.foldl max (l.headD 0)

/-- `series.isna().sum()`. -/
def countNone (s : List (Option ℚ)) : ℕ := (s.filter (fun x => x.isNone)).length

/-- The effective series after the missing-value policy:
`fillna(0)` when `tz`, `dropna()` otherwise. -/
def effSeries (tz : Bool) (s : List (Option ℚ)) : List ℚ :=
  if tz then s.map (fun x => x.getD 0) else s.filterMap id

/-- `schemas.ColumnStats`. -/
structure ColumnStats where
  col_key : String
  name : String
  count : ℕ
  missing_count : ℕ
  mean : Option ℚ := none
  median : Option ℚ := none
  mode : Option ℚ := none
  std : Option ℚ := none
  variance : Option ℚ := none
  min : Option ℚ := none
  max : Option ℚ := none
  q1 : Option ℚ := none
  q3 : Option ℚ := none
  iqr : Option ℚ := none
  sem : Option ℚ := none
  cv : Option ℚ := none
  range : Option ℚ := none
  p5 : Option ℚ := none
  p10 : Option ℚ := none
  p90 : Option ℚ := none
  p95 : Option ℚ := none
  skewness : Option ℚ := none
  kurtosis : Option ℚ := none
  ci_lower : Option ℚ := none
  ci_upper : Option ℚ := none
  sum : Option ℚ := none
  missing_pct : Option ℚ := none
  group_pct : Option ℚ := none
deriving DecidableEq, Repr

/-- Body of `calculate_column_stats` after the missing-value policy has
produced the effective series `eff`; `total` and `missing` are the
original length and the originally-missing count.  Mirrors the source
line by line (the `except` branch of the source is unreachable in the
model, since every modelled computation is total). -/
def statsFromEff (o : SciOracles) (ck cn : String) (total missing : ℕ)
    (cl : ℚ) (tp : Option ℕ) (eff : List ℚ) : ColumnStats :=
  let n := eff.length
  let missing_pct : ℚ :=
    if 0 < total then roundQ 2 ((missing : ℚ) / (total : ℚ) * 100) else 0
  let group_pct : Option ℚ :=
    match tp with
    | some t => if 0 < t then some (roundQ 2 ((total : ℚ) / (t : ℚ) * 100)) else none
    | none => none
  if n = 0 then
    { col_key := ck, name := cn, count := total, missing_count := missing,
      missing_pct := some missing_pct, group_pct := group_pct }
  else
    let mean := meanQ eff
    let stdV := pdStd o eff
    let semV := PyF.div stdV (.fin (o.sqrtQ (n : ℚ)))
    let cvV : Option PyF :=
      if pyNeQ (.fin mean) 0 then
        some (pyRound 4 (PyF.mul (PyF.div stdV (.fin mean)) (.fin 100)))
      else none
    let skewV : Option PyF := if 3 ≤ n then some (pdSkew o eff) else none
    let kurtV : Option PyF := if 4 ≤ n then some (pdKurt eff) else none
    let tc := o.tCrit ((1 + cl) / 2) (n - 1)
    let ciOk := 1 < n ∧ semV.truthy = true ∧ pyGtQ semV 0 = true
    let ciL : Option PyF :=
      if ciOk then some (PyF.sub (.fin mean) (PyF.mul (.fin tc) semV)) else none
    let ciU : Option PyF :=
      if ciOk then some (PyF.add (.fin mean) (PyF.mul (.fin tc) semV)) else none
    { col_key := ck, name := cn, count := total, missing_count := missing,
      mean := safeRound (some (.fin mean)) 4,
      median := safeRound (some (.fin (medianQ eff))) 4,
      mode := safeRound ((modeQ eff).map PyF.fin) 4,
      std := safeRound (some stdV) 4,
      variance := safeRound (some (pdVar eff)) 4,
      min := safeRound (some (.fin (minQ eff))) 4,
      max := safeRound (some (.fin (maxQ eff))) 4,
      q1 := safeRound (some (.fin (quantileQ eff (1 / 4)))) 4,
      q3 := safeRound (some (.fin (quantileQ eff (3 / 4)))) 4,
      iqr := safeRound (some (.fin (quantileQ eff (3 / 4) - quantileQ eff (1 / 4)))) 4,
      sem := safeRound (some semV) 4,
      cv := safeRound cvV 4,
      range := safeRound (some (.fin (maxQ eff - minQ eff))) 4,
      p5 := safeRound (some (.fin (quantileQ eff (5 / 100)))) 4,
      p10 := safeRound (some (.fin (quantileQ eff (10 / 100)))) 4,
      p90 := safeRound (some (.fin (quantileQ eff (90 / 100)))) 4,
      p95 := safeRound (some (.fin (quantileQ eff (95 / 100)))) 4,
      skewness := safeRound skewV 4,
      kurtosis := safeRound kurtV 4,
      ci_lower := safeRound ciL 4,
      ci_upper := safeRound ciU 4,
      sum := safeRound (some (.fin eff.sum)) 4,
      missing_pct := safeRound (some (.fin missing_pct)) 2,
      group_pct := safeRound (group_pct.map PyF.fin) 2 }

/-- `stats_service.calculate_column_stats` on a numeric series. -/
def calculate_column_stats (o : SciOracles) (ck cn : String)
    (s : List (Option ℚ)) (tz : Bool) (cl : ℚ) (tp : Option ℕ) : ColumnStats :=
  statsFromEff o ck cn s.length (countNone s) cl tp (effSeries tz s)

/-! ## Group comparison (`stats_service.compare_groups`)

The grouping itself (pandas `groupby` over the normalized group column)
partitions the dataframe; the per-variable logic below receives the list
of per-group raw value series, exactly as collected in the source's loop
over `group_keys`. -/

/-- `pd.to_numeric(..., errors="coerce")` on a cell. -/
def toNumeric (o : SciOracles) : Cell → Option ℚ
  | .num q => some q
  | .str s => o.parseNum s
  | .na => none

/-- Lines 316-321 of `stats_service.py`: fill or drop missing entries,
coerce to numeric, drop coercion failures. -/
def collectGroup (o : SciOracles) (tz : Bool) (g : List Cell) : List ℚ :=
  let g1 := if tz then g.map (fun c => if c = Cell.na then Cell.num 0 else c)
    else g.filter (fun c => decide (c ≠ Cell.na))
  g1.filterMap (toNumeric o)

/-- The valid groups: those with at least 2 numeric observations after
the missing-value policy. -/
def validGroups (o : SciOracles) (tz : Bool) (raw : List (List Cell)) : List (List ℚ) :=
  (raw.map (collectGroup o tz)).filter (fun g => decide (2 ≤ g.length))

/-- One group's normality vote (lines 333-347): Shapiro-Wilk for
8 ≤ n < 5000, the omnibus normality test otherwise when n ≥ 20 (which,
given the first guard failed, means n ≥ 5000); a swallowed exception or a
too-small group contributes no vote. -/
def groupNormalVote (o : SciOracles) (alpha : ℚ) (gd : List ℚ) : Bool :=
  if 8 ≤ gd.length ∧ gd.length < 5000 then
    match o.shapiroP gd with
    | some p => decide (alpha < p)
    | none => false
  else if 20 ≤ gd.length then
    match o.normaltestP gd with
    | some p => decide (alpha < p)
    | none => false
  else false

/-- `normal_count` of the source. -/
def normalCount (o : SciOracles) (alpha : ℚ) (gds : List (List ℚ)) : ℕ :=
  (gds.filter (groupNormalVote o alpha)).length

/-- Line 349: `is_normal = normal_count >= len(group_data) * 0.5`. -/
def isNormalVerdict (o : SciOracles) (alpha : ℚ) (gds : List (List ℚ)) : Bool :=
  decide ((gds.length : ℚ) * (1 / 2) ≤ (normalCount o alpha gds : ℚ))

/-- Lines 352-357: Levene homogeneity verdict; an exception leaves it
false. -/
def isHomogVerdict (o : SciOracles) (alpha : ℚ) (gds : List (List ℚ)) : Bool :=
  match o.leveneP gds with
  | some p => decide (alpha < p)
  | none => false

/-- The selected test's names and its (statistic, p-value). -/
structure RunResult where
  test_name : String
  test_display : String
  stat : PyF
  p : PyF
deriving DecidableEq, Repr

/-- Lines 365-410: test selection keyed on (number of groups, normality,
homogeneity). -/
def runSelectedTest (o : SciOracles) (isN isH : Bool) (gds : List (List ℚ)) : RunResult :=
  if gds.length = 2 then
    let a := gds.getD 0 []
    let b := gds.getD 1 []
    if isN then
      let r := o.ttestInd a b isH
      { test_name := if isH then "t-test independente" else "Welch\x27s t-test",
        test_display := if isH then "Teste t" else "Teste t de Welch",
        stat := r.1, p := r.2 }
    else
      let r := o.mannwhitneyu a b
      { test_name := "Mann-Whitney U", test_display := "Mann-Whitney U",
        stat := r.1, p := r.2 }
  else
    if isN && isH then
      let r := o.fOneway gds
      { test_name := "ANOVA one-way", test_display := "ANOVA", stat := r.1, p := r.2 }
    else if isN then
      let r := o.fOneway gds
      { test_name := "Welch\x27s ANOVA", test_display := "ANOVA de Welch",
        stat := r.1, p := r.2 }
    else
      let r := o.kruskal gds
      { test_name := "Kruskal-Wallis", test_display := "Kruskal-Wallis",
        stat := r.1, p := r.2 }

/-- Cohen's d (lines 381-384): pooled standard deviation via
`sqrt((var a + var b) / 2)` with sample variances, 0 when the pooled
standard deviation is not positive. -/
def cohensD (o : SciOracles) (a b : List ℚ) : ℚ :=
  let pooled := o.sqrtQ ((sampleVarQ a + sampleVarQ b) / 2)
  if 0 < pooled then |meanQ a - meanQ b| / pooled else 0

/-- Effect-size labels for Cohen's d. -/
def dInterp (d : ℚ) : String :=
  if d < 1 / 5 then "negligivel"
  else if d < 1 / 2 then "pequeno"
  else if d < 4 / 5 then "medio"
  else "grande"

/-- Eta squared (lines 413-417): SS_between / SS_total, 0 when SS_total
is not positive. -/
def etaSquared (gds : List (List ℚ)) : ℚ :=
  let allData := gds.flatten
  let gm := meanQ allData
  let ssb := (gds.map (fun gd => (gd.length : ℚ) * (meanQ gd - gm) ^ 2)).sum
  let sst := (allData.map (fun x => (x - gm) ^ 2)).sum
  if 0 < sst then ssb / sst else 0

/-- Effect-size labels for eta squared. -/
def etaInterp (e : ℚ) : String :=
  if e < 1 / 100 then "negligivel"
  else if e < 6 / 100 then "pequeno"
  else if e < 14 / 100 then "medio"
  else "grande"

/-- `schemas.GroupComparisonTest` (the source's `variable` field is the
Lean keyword, rendered `var_key`; the free-text interpretation fields are
not modelled; the `assumptions_met` dict is rendered as its two boolean
entries). -/
structure GroupComparisonTest where
  var_key : String
  variable_name : String
  test_name : String
  test_name_display : String
  statistic : ℚ
  p_value : ℚ
  significant : Bool
  alpha : ℚ
  effect_size : Option ℚ
  effect_size_name : String
  effect_size_interpretation : String
  normality : Bool
  homogeneity : Bool
deriving DecidableEq, Repr

/-- The per-variable body of `compare_groups` (lines 311-480): `none`
when the variable contributes no record to the results. -/
def compareVariable (o : SciOracles) (alpha : ℚ) (tz : Bool)
    (varKey varName : String) (raw : List (List Cell)) : Option GroupComparisonTest :=
  let gds := validGroups o tz raw
  if gds.length < 2 then none
  else
    let isN := isNormalVerdict o alpha gds
    let isH := isHomogVerdict o alpha gds
    let run := runSelectedTest o isN isH gds
    let effectVal : ℚ :=
      if gds.length = 2 then roundQ 4 (cohensD o (gds.getD 0 []) (gds.getD 1 []))
      else roundQ 4 (etaSquared gds)
    let effectName := if gds.length = 2 then "d de Cohen" else "eta2"
    let effectLabel :=
      if gds.length = 2 then dInterp (cohensD o (gds.getD 0 []) (gds.getD 1 []))
      else etaInterp (etaSquared gds)
    let statV := safeRound (some run.stat) 4
    let pV := safeRound (some run.p) 6
    match statV, pV with
    | some sv, some pv =>
      some { var_key := varKey, variable_name := varName,
             test_name := run.test_name, test_name_display := run.test_display,
             statistic := sv, p_value := pv,
             significant := pyLtQ run.p alpha, alpha := alpha,
             effect_size := safeRound (some (.fin effectVal)) 4,
             effect_size_name := effectName,
             effect_size_interpretation := effectLabel,
             normality := isN, homogeneity := isH }
    | _, _ => none

/-- `compare_groups` over the selected variables: each variable is a
(col key, display name, per-group raw series) triple; variables whose
computation yields no record are skipped. -/
def compare_groups (o : SciOracles) (alpha : ℚ) (tz : Bool)
    (vars : List (String × String × List (List Cell))) : List GroupComparisonTest :=
  vars.filterMap (fun v => compareVariable o alpha tz v.1 v.2.1 v.2.2)

/-! ## Correlation matrix (`stats_service.calculate_correlation_matrix`) -/

/-- `columns_meta.get(col, col)`. -/
def metaGet (meta : List (String × String)) (c : String) : String :=
  match meta.find? (fun p => p.1 == c) with
  | some p => p.2
  | none => c

/-- The requested columns present in the dataframe. -/
def corrValidCols (df : Table) (varCols : List String) : List String :=
  varCols.filter (fun c => decide (c ∈ df.cols))

/-- The rows surviving the missing-value policy: all of them under
treat-as-zero, otherwise only rows where every valid column coerces to a
number (`DataFrame.dropna()` over the numeric subset). -/
def corrEffRows (o : SciOracles) (tz : Bool) (df : Table)
    (validCols : List String) : List (String → Cell) :=
  if tz then df.rows
  else df.rows.filter (fun r => validCols.all (fun c => (toNumeric o (r c)).isSome))

/-- One column's post-policy numeric values (coercion failures and
missing entries become 0 under treat-as-zero; under drop they are absent
because their whole row was dropped). -/
def corrColVals (o : SciOracles) (tz : Bool) (df : Table)
    (validCols : List String) (c : String) : List ℚ :=
  (corrEffRows o tz df validCols).map (fun r => (toNumeric o (r c)).getD 0)

/-- `cols_to_keep` (lines 613-616): columns with some non-missing entry
and positive standard deviation. -/
def corrKeepCols (o : SciOracles) (tz : Bool) (df : Table)
    (validCols : List String) : List String :=
  validCols.filter (fun c =>
    decide (corrColVals o tz df validCols c ≠ []) &&
      pyGtQ (pdStd o (corrColVals o tz df validCols c)) 0)

/-- Pearson correlation of two aligned columns
(`DataFrame.corr(method="pearson")` entrywise); a zero denominator gives
NaN. -/
def pearsonPy (o : SciOracles) (xs ys : List ℚ) : PyF :=
  let mx := meanQ xs
  let my := meanQ ys
  let cov := ((xs.zip ys).map (fun p => (p.1 - mx) * (p.2 - my))).sum
  PyF.div (.fin cov) (.fin (o.sqrtQ (ssdQ xs) * o.sqrtQ (ssdQ ys)))

/-- `stats_service.calculate_correlation_matrix`: returns
(sample size, display names, matrix); NaN coefficients become 0.0 and
finite ones are rounded to 2 decimals. -/
def calculate_correlation_matrix (o : SciOracles) (tz : Bool) (df : Table)
    (varCols : List String) (meta : List (String × String))
    (filters : List FilterCondition) : ℕ × List String × List (List ℚ) :=
  let df1 := apply_filters df filters
  let n := df1.rows.length
  let vc := corrValidCols df1 varCols
  if vc.length < 2 then (n, [], [])
  else
    let keep := corrKeepCols o tz df1 vc
    if keep.length < 2 then (n, [], [])
    else
      let names := keep.map (metaGet meta)
      let mat := keep.map (fun rc => keep.map (fun c =>
        match pearsonPy o (corrColVals o tz df1 vc rc) (corrColVals o tz df1 vc c) with
        | .fin v => roundQ 2 v
        | .nf => 0))
      (n, names, mat)

/-! ## Fixtures for concrete evaluations -/

/-- A concrete oracle assignment (identity square root, trivial tests)
used to evaluate the embedding at concrete inputs. -/
def oracle0 : SciOracles where
  sqrtQ := fun q => q
  tCrit := fun _ _ => 0
  shapiroP := fun _ => none
  normaltestP := fun _ => none
  leveneP := fun _ => none
  parseNum := fun _ => none
  ttestInd := fun _ _ _ => (.fin 0, .fin 0)
  mannwhitneyu := fun _ _ => (.fin 0, .fin 0)
  fOneway := fun _ => (.fin 0, .fin 0)
  kruskal := fun _ => (.fin 0, .fin 0)

/-- An oracle whose Shapiro-Wilk test passes exactly the groups
containing the value 1 (p-value 1 against p-value 0). -/
def oracleCex : SciOracles :=
  { oracle0 with shapiroP := fun g => some (if (1 : ℚ) ∈ g then 1 else 0) }

/-- Three valid groups: one too small to be evaluated for normality, one
passing under `oracleCex`, one failing. -/
def cexGroups : List (List ℚ) := [[0, 0], List.replicate 8 1, List.replicate 8 0]

/-- A one-row, one-column table. -/
def exTable : Table := { cols := ["g"], rows := [fun _ => Cell.num 1] }

/-- A filter condition with an empty value set. -/
def exCond : FilterCondition := { col_key := "g", values := [] }

/-- Table with a constant column `a` and a varying column `b`. -/
def exCorrDf : Table :=
  { cols := ["a", "b"],
    rows := [fun c => if c = "b" then Cell.num 1 else Cell.num 1,
             fun c => if c = "b" then Cell.num 2 else Cell.num 1,
             fun c => if c = "b" then Cell.num 3 else Cell.num 1] }

/-- Replace every missing entry of a series by an explicit zero. -/
def zeroFill (s : List (Option ℚ)) : List (Option ℚ) :=
  s.map (fun x => some (x.getD 0))

/-- Two column-statistics records agree on every derived statistic
(all fields other than the identification fields and the raw
`count` / `missing_count` / `missing_pct`). -/
def derivedEq (a b : ColumnStats) : Prop :=
  a.mean = b.mean ∧ a.median = b.median ∧ a.mode = b.mode ∧ a.std = b.std ∧
  a.variance = b.variance ∧ a.min = b.min ∧ a.max = b.max ∧ a.q1 = b.q1 ∧
  a.q3 = b.q3 ∧ a.iqr = b.iqr ∧ a.sem = b.sem ∧ a.cv = b.cv ∧
  a.range = b.range ∧ a.p5 = b.p5 ∧ a.p10 = b.p10 ∧ a.p90 = b.p90 ∧
  a.p95 = b.p95 ∧ a.skewness = b.skewness ∧ a.kurtosis = b.kurtosis ∧
  a.ci_lower = b.ci_lower ∧ a.ci_upper = b.ci_upper ∧ a.sum = b.sum ∧
  a.group_pct = b.group_pct

/-- `v` is absent or an integer multiple of `10 ^ (-d)`: the image of
rounding to `d` decimal places. -/
def RoundedTo (v : Option ℚ) (d : ℕ) : Prop :=
  ∀ q : ℚ, v = some q → ∃ k : ℤ, q = (k : ℚ) / 10 ^ d

/-! ## Helper lemmas -/

theorem apply_filters_cols (df : Table) (fs : List FilterCondition) :
    (apply_filters df fs).cols = df.cols := by
  induction fs generalizing df with
  | nil => rfl
  | cons f fs ih =>
    simp only [apply_filters, List.foldl_cons]
    by_cases h : f.col_key ∈ df.cols ∧ f.values ≠ []
    · simpa [h] using ih _
    · simpa [h] using ih df

theorem apply_filters_rows (df : Table) (fs : List FilterCondition) :
    (apply_filters df fs).rows = df.rows.filter (rowPass df.cols fs) := by
  induction fs generalizing df with
  | nil =>
    have h0 : rowPass df.cols [] = fun _ => true := rfl
    simp [apply_filters, h0, List.filter_true]
  | cons f fs ih =>
    simp only [apply_filters, List.foldl_cons]
    by_cases h : f.col_key ∈ df.cols ∧ f.values ≠ []
    · rw [if_pos h]
      have := ih { df with rows := df.rows.filter (fun r => decide (r f.col_key ∈ f.values)) }
      simp only [apply_filters] at this
      rw [this, List.filter_filter]
      congr 1
      funext r
      simp [rowPass, condActive, h.1, h.2, Bool.and_comm]
    · rw [if_neg h]
      have hih := ih df
      simp only [apply_filters] at hih
      rw [hih]
      congr 1
      funext r
      have : condActive df.cols f = false := by
        rcases not_and_or.mp h with h1 | h1
        · simp [condActive, h1]
        · simp [condActive, not_not.mp h1]
      simp [rowPass, this]

theorem splitWsAux_words_ne_nil (cs : List Char) :
    ∀ acc : List Char, ∀ w ∈ splitWsAux cs acc, w ≠ [] := by
  induction cs with
  | nil =>
    intro acc w hw
    by_cases h : acc = []
    · simp [splitWsAux, h] at hw
    · simp only [splitWsAux, if_neg h, List.mem_singleton] at hw
      subst hw
      simpa using h
  | cons c cs ih =>
    intro acc w hw
    simp only [splitWsAux] at hw
    by_cases hws : c.isWhitespace
    · rw [if_pos hws] at hw
      by_cases ha : acc = []
      · rw [if_pos ha] at hw
        exact ih [] w hw
      · rw [if_neg ha] at hw
        rcases List.mem_cons.mp hw with h1 | h1
        · subst h1
          simpa using ha
        · exact ih [] w h1
    · rw [if_neg hws] at hw
      exact ih (c :: acc) w hw

theorem joinWs_ne_nil :
    ∀ ws : List (List Char), (∀ w ∈ ws, w ≠ []) → ws ≠ [] → joinWs ws ≠ [] := by
  intro ws
  match ws with
  | [] => intro _ h; exact absurd rfl h
  | [w] => intro hw _; simpa [joinWs] using hw w (by simp)
  | w :: w2 :: ws => intro hw _; simp [joinWs]

/-! ## Claim C4 -/

/-- C4 as stated is false: the claim asserts that every degenerate
(empty or all-missing) input series classifies as continuous, but an
empty series of object storage classifies as categorical. -/
theorem C4_counterexample :
    detect_variable_type ⟨Dtype.obj, []⟩ = "categorical" ∧
      detect_variable_type ⟨Dtype.obj, []⟩ ≠ "continuous" := by
  constructor
  · rfl
  · decide

/-- C4 (amended): `detect_variable_type` is total with range
categorical / discrete / continuous; every empty-or-all-missing series of
NUMERIC storage returns continuous; non-numeric storage returns
categorical; a numeric series with at least one non-missing entry is
discrete exactly when its unique count is at most the discreteness
threshold (30) or its unique ratio is at most the discreteness ratio
(0.02), and continuous otherwise. -/
theorem C4_detect_variable_type :
    (∀ s : PdSeries, detect_variable_type s = "categorical" ∨
      detect_variable_type s = "discrete" ∨ detect_variable_type s = "continuous")
    ∧ (∀ s : PdSeries, isNumericDtype s.dtype = true → seriesNonNull s = [] →
        detect_variable_type s = "continuous")
    ∧ (∀ s : PdSeries, isNumericDtype s.dtype = false →
        detect_variable_type s = "categorical")
    ∧ (∀ s : PdSeries, isNumericDtype s.dtype = true → seriesNonNull s ≠ [] →
        ((detect_variable_type s = "discrete" ↔
          ((seriesNonNull s).dedup.length ≤ DISCRETE_THRESHOLD ∨
            ((seriesNonNull s).dedup.length : ℚ) / ((seriesNonNull s).length : ℚ) ≤
              discreteRatioQ))
        ∧ (detect_variable_type s = "continuous" ↔
          ¬ ((seriesNonNull s).dedup.length ≤ DISCRETE_THRESHOLD ∨
            ((seriesNonNull s).dedup.length : ℚ) / ((seriesNonNull s).length : ℚ) ≤
              discreteRatioQ)))) := by
  refine ⟨?_, ?_, ?_, ?_⟩
  · intro s
    unfold detect_variable_type
    split
    · exact Or.inl rfl
    · split
      · dsimp only
        split
        · exact Or.inr (Or.inr rfl)
        · split
          · exact Or.inr (Or.inl rfl)
          · exact Or.inr (Or.inr rfl)
      · exact Or.inl rfl
  · intro s h1 h2
    have hno : ¬ (s.dtype = .obj ∨ s.dtype = .category) := by
      cases hd : s.dtype <;> simp [hd, isNumericDtype] at h1 ⊢
    unfold detect_variable_type
    rw [if_neg hno, if_pos h1, h2]
    rfl
  · intro s h1
    unfold detect_variable_type
    by_cases hno : s.dtype = .obj ∨ s.dtype = .category
    · rw [if_pos hno]
    · rw [if_neg hno, if_neg (by simp [h1])]
  · intro s h1 h2
    have hno : ¬ (s.dtype = .obj ∨ s.dtype = .category) := by
      cases hd : s.dtype <;> simp [hd, isNumericDtype] at h1 ⊢
    have hlen : ¬ (seriesNonNull s).length = 0 := by
      simpa [List.length_eq_zero] using h2
    unfold detect_variable_type
    rw [if_neg hno, if_pos h1]
    simp only [hlen, if_false]
    by_cases hcond : (seriesNonNull s).dedup.length ≤ DISCRETE_THRESHOLD ∨
        ((seriesNonNull s).dedup.length : ℚ) / ((seriesNonNull s).length : ℚ) ≤ discreteRatioQ
    · rw [if_pos hcond]
      exact ⟨by simp [hcond], by simp [hcond]⟩
    · rw [if_neg hcond]
      exact ⟨by simp [hcond], by simp [hcond]⟩

/-- Witness: the amended C4 theorem applied to an all-missing float
series, whose classification is continuous. -/
theorem C4_witness :
    isNumericDtype Dtype.float64 = true ∧
      seriesNonNull ⟨Dtype.float64, [Cell.na]⟩ = [] ∧
      detect_variable_type ⟨Dtype.float64, [Cell.na]⟩ = "continuous" :=
  ⟨rfl, rfl, C4_detect_variable_type.2.1 ⟨Dtype.float64, [Cell.na]⟩ rfl rfl⟩

/-! ## Claim C7 -/

/-- C7: group-value normalization passes missing values through, leaves
numeric values unchanged, turns whitespace-only text into missing,
rewrites text to its whitespace-collapsed word sequence, and therefore
sends any two texts with the same word sequence (texts differing only by
leading/trailing/repeated internal whitespace) to the same group key. -/
theorem C7_normalize_group_value :
    (normalizeGroupValue Cell.na = Cell.na)
    ∧ (∀ q : ℚ, normalizeGroupValue (Cell.num q) = Cell.num q)
    ∧ (∀ s : String, pySplit s = [] → normalizeGroupValue (Cell.str s) = Cell.na)
    ∧ (∀ s : String, pySplit s ≠ [] →
        normalizeGroupValue (Cell.str s) = Cell.str (String.mk (joinWs (pySplit s))))
    ∧ (∀ s1 s2 : String, pySplit s1 = pySplit s2 →
        normalizeGroupValue (Cell.str s1) = normalizeGroupValue (Cell.str s2)) := by
  refine ⟨rfl, fun q => rfl, ?_, ?_, ?_⟩
  · intro s h
    simp [normalizeGroupValue, h, joinWs]
  · intro s h
    have hwords : ∀ w ∈ pySplit s, w ≠ [] := by
      simpa [pySplit] using splitWsAux_words_ne_nil s.toList []
    have hne : joinWs (pySplit s) ≠ [] := joinWs_ne_nil _ hwords h
    simp [normalizeGroupValue, hne]
  · intro s1 s2 h
    simp [normalizeGroupValue, h]

/-- Witness: two texts differing only in extra whitespace normalize to
the same group key. -/
theorem C7_witness :
    pySplit "  a  b " = pySplit "a b" ∧
      normalizeGroupValue (Cell.str "  a  b ") = normalizeGroupValue (Cell.str "a b") :=
  ⟨by decide, C7_normalize_group_value.2.2.2.2 "  a  b " "a b" (by decide)⟩

/-! ## Claim C6 -/

theorem rowPass_append (cols : List String) (fs1 fs2 : List FilterCondition)
    (r : String → Cell) :
    rowPass cols (fs1 ++ fs2) r = (rowPass cols fs1 r && rowPass cols fs2 r) := by
  simp [rowPass, List.all_append]

/-- C6: a condition with an empty value set or an unknown column removes
no rows (inserting it anywhere in a filter list leaves the result
unchanged); filtering always returns a subsequence of the input rows; and
the conjunction of two filter lists never returns more rows than either
list alone. -/
theorem C6_apply_filters (df : Table) (f : FilterCondition)
    (fs fs1 fs2 : List FilterCondition) :
    (f.values = [] ∨ f.col_key ∉ df.cols →
      (apply_filters df (fs1 ++ f :: fs2)).rows = (apply_filters df (fs1 ++ fs2)).rows)
    ∧ (apply_filters df fs).rows.Sublist df.rows
    ∧ (apply_filters df (fs1 ++ fs2)).rows.length ≤ (apply_filters df fs1).rows.length
    ∧ (apply_filters df (fs1 ++ fs2)).rows.length ≤ (apply_filters df fs2).rows.length := by
  have hca : f.values = [] ∨ f.col_key ∉ df.cols → condActive df.cols f = false := by
    intro h
    rcases h with h | h
    · simp [condActive, h]
    · simp [condActive, h]
  refine ⟨?_, ?_, ?_, ?_⟩
  · intro h
    rw [apply_filters_rows, apply_filters_rows]
    apply List.filter_congr
    intro r _
    rw [rowPass_append, rowPass_append]
    have : rowPass df.cols (f :: fs2) r = rowPass df.cols fs2 r := by
      simp [rowPass, hca h]
    rw [this]
  · rw [apply_filters_rows]
    exact List.filter_sublist _
  · rw [apply_filters_rows, apply_filters_rows]
    have : df.rows.filter (rowPass df.cols (fs1 ++ fs2)) =
        (df.rows.filter (rowPass df.cols fs1)).filter (rowPass df.cols fs2) := by
      rw [List.filter_filter]
      apply List.filter_congr
      intro r _
      rw [rowPass_append]
      exact Bool.and_comm _ _
    rw [this]
    exact (List.filter_sublist _).length_le
  · rw [apply_filters_rows, apply_filters_rows]
    have : df.rows.filter (rowPass df.cols (fs1 ++ fs2)) =
        (df.rows.filter (rowPass df.cols fs2)).filter (rowPass df.cols fs1) := by
      rw [List.filter_filter]
      apply List.filter_congr
      intro r _
      rw [rowPass_append]
    rw [this]
    exact (List.filter_sublist _).length_le

/-- Witness: inserting an empty-valued condition changes nothing on a
concrete table. -/
theorem C6_witness :
    (exCond.values = [] ∨ exCond.col_key ∉ exTable.cols) ∧
      (apply_filters exTable ([] ++ exCond :: [])).rows =
        (apply_filters exTable ([] ++ [])).rows :=
  ⟨Or.inl rfl, (C6_apply_filters exTable exCond [] [] []).1 (Or.inl rfl)⟩

/-! ## Claim C8 -/

/-- C8: for three or more groups with normality accepted, the
homogeneous branch (reported as one-way ANOVA) and the non-homogeneous
branch (reported as Welch's ANOVA) produce the identical statistic and
p-value (both call the same `f_oneway` routine); only the reported names
differ. -/
theorem C8_welch_anova_is_plain_anova (o : SciOracles) (gds : List (List ℚ))
    (h : 3 ≤ gds.length) :
    (runSelectedTest o true true gds).stat = (runSelectedTest o true false gds).stat
    ∧ (runSelectedTest o true true gds).p = (runSelectedTest o true false gds).p
    ∧ (runSelectedTest o true true gds).test_name = "ANOVA one-way"
    ∧ (runSelectedTest o true false gds).test_name = "Welch\x27s ANOVA" := by
  have h2 : ¬ gds.length = 2 := by omega
  simp [runSelectedTest, h2]

/-- Witness: the Welch-vs-plain ANOVA identity at three concrete
groups. -/
theorem C8_witness :
    (runSelectedTest oracle0 true true [[0], [1], [2]]).stat =
      (runSelectedTest oracle0 true false [[0], [1], [2]]).stat :=
  (C8_welch_anova_is_plain_anova oracle0 [[0], [1], [2]] (by decide)).1

/-! ## Claim C1 -/

/-- C1 as stated is false: with three valid groups of which only two are
large enough to be evaluated, one passing and one failing, at least half
of the evaluated groups pass, yet the code's verdict is false — the
source divides by the number of ALL valid groups, not of evaluated
ones. -/
theorem C1_counterexample :
    ¬ (isNormalVerdict oracleCex (1 / 20) cexGroups = true ↔
        (cexGroups.filter (fun g => decide (8 ≤ g.length))).length ≤
          2 * normalCount oracleCex (1 / 20) cexGroups) := by
  have h1 : isNormalVerdict oracleCex (1 / 20) cexGroups = false := by
    with_unfolding_all rfl
  have h2 : (cexGroups.filter (fun g => decide (8 ≤ g.length))).length = 2 := by
    with_unfolding_all rfl
  have h3 : normalCount oracleCex (1 / 20) cexGroups = 1 := by
    with_unfolding_all rfl
  intro h
  have hb : (cexGroups.filter (fun g => decide (8 ≤ g.length))).length ≤
      2 * normalCount oracleCex (1 / 20) cexGroups := by
    rw [h2, h3]
  have hc := h.mpr hb
  rw [h1] at hc
  exact Bool.false_ne_true hc

/-- C1 (amended): the overall normality verdict is true exactly when the
groups passing their individual normality test number at least half of
ALL valid groups (not merely of the evaluated ones); a group with fewer
than 8 observations never passes, so it weighs against normality through
the denominator rather than contributing no signal. -/
theorem C1_normal_majority (o : SciOracles) (alpha : ℚ) (gds : List (List ℚ))
    (gd : List ℚ) :
    (isNormalVerdict o alpha gds = true ↔
      gds.length ≤ 2 * normalCount o alpha gds)
    ∧ (gd.length < 8 → groupNormalVote o alpha gd = false) := by
  constructor
  · simp only [isNormalVerdict, decide_eq_true_eq]
    constructor
    · intro h
      have h2 : (gds.length : ℚ) ≤ ((2 * normalCount o alpha gds : ℕ) : ℚ) := by
        push_cast
        linarith [h]
      exact_mod_cast h2
    · intro h
      have h2 : ((gds.length : ℕ) : ℚ) ≤ ((2 * normalCount o alpha gds : ℕ) : ℚ) := by
        exact_mod_cast h
      push_cast at h2
      linarith
  · intro h
    have h1 : ¬ (8 ≤ gd.length ∧ gd.length < 5000) := by omega
    have h2 : ¬ 20 ≤ gd.length := by omega
    simp [groupNormalVote, h1, h2]

/-- Witness: a two-observation group casts no normality vote. -/
theorem C1_witness :
    ([0, 0] : List ℚ).length < 8 ∧
      groupNormalVote oracle0 (1 / 20) [0, 0] = false :=
  ⟨by decide, (C1_normal_majority oracle0 (1 / 20) [] [0, 0]).2 (by decide)⟩

/-! ## Claim C2 -/

/-- C2: with exactly two valid groups (each having at least 2 numeric
observations after the missing-value policy), the selector picks
Mann-Whitney U when normality fails, the equal-variance t-test when
normality and homogeneity both hold, and Welch's t-test when normality
holds but homogeneity fails; the appended record (when any) carries the
selected test's name. -/
theorem C2_two_group_selection (o : SciOracles) (alpha : ℚ) (tz : Bool)
    (vk vn : String) (raw : List (List Cell))
    (h2 : (validGroups o tz raw).length = 2) :
    (isNormalVerdict o alpha (validGroups o tz raw) = false →
      (runSelectedTest o (isNormalVerdict o alpha (validGroups o tz raw))
        (isHomogVerdict o alpha (validGroups o tz raw))
        (validGroups o tz raw)).test_name = "Mann-Whitney U")
    ∧ (isNormalVerdict o alpha (validGroups o tz raw) = true →
        isHomogVerdict o alpha (validGroups o tz raw) = true →
        (runSelectedTest o (isNormalVerdict o alpha (validGroups o tz raw))
          (isHomogVerdict o alpha (validGroups o tz raw))
          (validGroups o tz raw)).test_name = "t-test independente")
    ∧ (isNormalVerdict o alpha (validGroups o tz raw) = true →
        isHomogVerdict o alpha (validGroups o tz raw) = false →
        (runSelectedTest o (isNormalVerdict o alpha (validGroups o tz raw))
          (isHomogVerdict o alpha (validGroups o tz raw))
          (validGroups o tz raw)).test_name = "Welch\x27s t-test")
    ∧ (∀ r : GroupComparisonTest, compareVariable o alpha tz vk vn raw = some r →
        r.test_name = (runSelectedTest o (isNormalVerdict o alpha (validGroups o tz raw))
          (isHomogVerdict o alpha (validGroups o tz raw))
          (validGroups o tz raw)).test_name) := by
  refine ⟨?_, ?_, ?_, ?_⟩
  · intro hn
    simp [runSelectedTest, h2, hn]
  · intro hn hh
    simp [runSelectedTest, h2, hn, hh]
  · intro hn hh
    simp [runSelectedTest, h2, hn, hh]
  · intro r hr
    simp only [compareVariable] at hr
    rw [if_neg (by omega)] at hr
    split at hr
    · injection hr with h
      subst h
      rfl
    · exact absurd hr (by simp)

/-- Two raw groups with two numeric observations each. -/
def rawTwoGroups : List (List Cell) :=
  [[Cell.num 0, Cell.num 1], [Cell.num 2, Cell.num 3]]

/-- Witness: on two small concrete groups (no normality vote possible)
the selector picks Mann-Whitney U. -/
theorem C2_witness :
    (validGroups oracle0 true rawTwoGroups).length = 2 ∧
      isNormalVerdict oracle0 (1 / 20) (validGroups oracle0 true rawTwoGroups) = false ∧
      (runSelectedTest oracle0 (isNormalVerdict oracle0 (1 / 20) (validGroups oracle0 true rawTwoGroups))
        (isHomogVerdict oracle0 (1 / 20) (validGroups oracle0 true rawTwoGroups))
        (validGroups oracle0 true rawTwoGroups)).test_name = "Mann-Whitney U" :=
  ⟨by with_unfolding_all rfl, by with_unfolding_all rfl,
    (C2_two_group_selection oracle0 (1 / 20) true "v" "v" rawTwoGroups
      (by with_unfolding_all rfl)).1 (by with_unfolding_all rfl)⟩

/-! ## Claim C10 -/

/-- C10: a variable's comparison record is appended exactly when both the
4-decimal-rounded statistic and the 6-decimal-rounded p-value are finite
(safe rounding returns non-null); fewer than two valid groups also yield
no record. -/
theorem C10_finite_gate (o : SciOracles) (alpha : ℚ) (tz : Bool)
    (vk vn : String) (raw : List (List Cell)) :
    ((validGroups o tz raw).length < 2 → compareVariable o alpha tz vk vn raw = none)
    ∧ (2 ≤ (validGroups o tz raw).length →
        ((compareVariable o alpha tz vk vn raw).isSome = true ↔
          safeRound (some (runSelectedTest o (isNormalVerdict o alpha (validGroups o tz raw))
              (isHomogVerdict o alpha (validGroups o tz raw))
              (validGroups o tz raw)).stat) 4 ≠ none
            ∧ safeRound (some (runSelectedTest o (isNormalVerdict o alpha (validGroups o tz raw))
              (isHomogVerdict o alpha (validGroups o tz raw))
              (validGroups o tz raw)).p) 6 ≠ none)) := by
  constructor
  · intro h
    simp only [compareVariable]
    rw [if_pos h]
  · intro h
    simp only [compareVariable]
    rw [if_neg (by omega)]
    rcases hs : safeRound (some (runSelectedTest o (isNormalVerdict o alpha (validGroups o tz raw))
        (isHomogVerdict o alpha (validGroups o tz raw))
        (validGroups o tz raw)).stat) 4 with _ | sv <;>
      rcases hp : safeRound (some (runSelectedTest o (isNormalVerdict o alpha (validGroups o tz raw))
        (isHomogVerdict o alpha (validGroups o tz raw))
        (validGroups o tz raw)).p) 6 with _ | pv <;>
      simp [hs, hp]

/-- Witness: an empty group list yields no record. -/
theorem C10_witness :
    compareVariable oracle0 (1 / 20) true "v" "v" [] = none :=
  (C10_finite_gate oracle0 (1 / 20) true "v" "v" []).1 (by decide)

/-! ## Claim C3 -/

theorem effSeries_zeroFill (s : List (Option ℚ)) :
    effSeries true (zeroFill s) = effSeries true s := by
  simp [effSeries, zeroFill, List.map_map, Function.comp_def]

theorem zeroFill_length (s : List (Option ℚ)) : (zeroFill s).length = s.length := by
  simp [zeroFill]

theorem statsFromEff_missing_irrel (o : SciOracles) (ck cn : String)
    (total m1 m2 : ℕ) (cl : ℚ) (tp : Option ℕ) (eff : List ℚ) :
    derivedEq (statsFromEff o ck cn total m1 cl tp eff)
      (statsFromEff o ck cn total m2 cl tp eff) := by
  by_cases h : eff.length = 0 <;>
    simp [statsFromEff, derivedEq, h]

/-- C3: under treat-as-zero, every derived statistic equals the one
computed on the series with each missing entry replaced by an explicit
zero, while `count` stays the original length and `missing_count` counts
the originally-missing entries; on the concrete series
[10, 20, 30, 40, missing] this gives mean 20, count 5, missing_count 1
and missing_pct 20. -/
theorem C3_treat_as_zero (o : SciOracles) (ck cn : String)
    (s : List (Option ℚ)) (cl : ℚ) (tp : Option ℕ) :
    (calculate_column_stats o ck cn s true cl tp).count = s.length
    ∧ (calculate_column_stats o ck cn s true cl tp).missing_count = countNone s
    ∧ derivedEq (calculate_column_stats o ck cn s true cl tp)
        (calculate_column_stats o ck cn (zeroFill s) true cl tp)
    ∧ (calculate_column_stats oracle0 "v" "v" [some 10, some 20, some 30, some 40, none]
        true (95 / 100) none).mean = some 20
    ∧ (calculate_column_stats oracle0 "v" "v" [some 10, some 20, some 30, some 40, none]
        true (95 / 100) none).count = 5
    ∧ (calculate_column_stats oracle0 "v" "v" [some 10, some 20, some 30, some 40, none]
        true (95 / 100) none).missing_count = 1
    ∧ (calculate_column_stats oracle0 "v" "v" [some 10, some 20, some 30, some 40, none]
        true (95 / 100) none).missing_pct = some 20 := by
  refine ⟨?_, ?_, ?_, ?_, ?_, ?_, ?_⟩
  · by_cases h : (effSeries true s).length = 0 <;>
      simp [calculate_column_stats, statsFromEff, h]
  · by_cases h : (effSeries true s).length = 0 <;>
      simp [calculate_column_stats, statsFromEff, h]
  · have he := effSeries_zeroFill s
    have hl := zeroFill_length s
    simp only [calculate_column_stats, he, hl]
    exact statsFromEff_missing_irrel o ck cn s.length (countNone s)
      (countNone (zeroFill s)) cl tp (effSeries true s)
  · with_unfolding_all rfl
  · with_unfolding_all rfl
  · with_unfolding_all rfl
  · with_unfolding_all rfl

/-! ## Claim C5 -/

theorem roundedTo_none (d : ℕ) : RoundedTo none d := by
  intro q hq
  simp at hq

theorem roundedTo_roundQ (x : ℚ) (d : ℕ) : RoundedTo (some (roundQ d x)) d := by
  intro q hq
  injection hq with h
  exact ⟨rInt (x * 10 ^ d), by rw [← h]; rfl⟩

theorem roundedTo_zero (d : ℕ) : RoundedTo (some 0) d := by
  intro q hq
  injection hq with h
  exact ⟨0, by rw [← h]; simp⟩

theorem roundedTo_safeRound (v : Option PyF) (d : ℕ) :
    RoundedTo (safeRound v d) d := by
  rcases v with _ | v
  · exact roundedTo_none d
  · rcases v with q2 | _
    · exact roundedTo_roundQ q2 d
    · exact roundedTo_none d

theorem statsFromEff_rounded (o : SciOracles) (ck cn : String)
    (total missing : ℕ) (cl : ℚ) (tp : Option ℕ) (eff : List ℚ) :
    RoundedTo (statsFromEff o ck cn total missing cl tp eff).mean 4
    ∧ RoundedTo (statsFromEff o ck cn total missing cl tp eff).median 4
    ∧ RoundedTo (statsFromEff o ck cn total missing cl tp eff).mode 4
    ∧ RoundedTo (statsFromEff o ck cn total missing cl tp eff).std 4
    ∧ RoundedTo (statsFromEff o ck cn total missing cl tp eff).variance 4
    ∧ RoundedTo (statsFromEff o ck cn total missing cl tp eff).min 4
    ∧ RoundedTo (statsFromEff o ck cn total missing cl tp eff).max 4
    ∧ RoundedTo (statsFromEff o ck cn total missing cl tp eff).q1 4
    ∧ RoundedTo (statsFromEff o ck cn total missing cl tp eff).q3 4
    ∧ RoundedTo (statsFromEff o ck cn total missing cl tp eff).iqr 4
    ∧ RoundedTo (statsFromEff o ck cn total missing cl tp eff).sem 4
    ∧ RoundedTo (statsFromEff o ck cn total missing cl tp eff).cv 4
    ∧ RoundedTo (statsFromEff o ck cn total missing cl tp eff).range 4
    ∧ RoundedTo (statsFromEff o ck cn total missing cl tp eff).p5 4
    ∧ RoundedTo (statsFromEff o ck cn total missing cl tp eff).p10 4
    ∧ RoundedTo (statsFromEff o ck cn total missing cl tp eff).p90 4
    ∧ RoundedTo (statsFromEff o ck cn total missing cl tp eff).p95 4
    ∧ RoundedTo (statsFromEff o ck cn total missing cl tp eff).skewness 4
    ∧ RoundedTo (statsFromEff o ck cn total missing cl tp eff).kurtosis 4
    ∧ RoundedTo (statsFromEff o ck cn total missing cl tp eff).ci_lower 4
    ∧ RoundedTo (statsFromEff o ck cn total missing cl tp eff).ci_upper 4
    ∧ RoundedTo (statsFromEff o ck cn total missing cl tp eff).sum 4
    ∧ RoundedTo (statsFromEff o ck cn total missing cl tp eff).missing_pct 2
    ∧ RoundedTo (statsFromEff o ck cn total missing cl tp eff).group_pct 2 := by
  by_cases h : eff.length = 0
  · simp only [statsFromEff, h, eq_self_iff_true, if_true]
    refine ⟨roundedTo_none _, roundedTo_none _, roundedTo_none _, roundedTo_none _,
      roundedTo_none _, roundedTo_none _, roundedTo_none _, roundedTo_none _,
      roundedTo_none _, roundedTo_none _, roundedTo_none _, roundedTo_none _,
      roundedTo_none _, roundedTo_none _, roundedTo_none _, roundedTo_none _,
      roundedTo_none _, roundedTo_none _, roundedTo_none _, roundedTo_none _,
      roundedTo_none _, roundedTo_none _, ?_, ?_⟩
    · by_cases ht : 0 < total
      · simp only [ht, if_true, if_pos ht]
        exact roundedTo_roundQ _ _
      · simp only [ht, if_false, if_neg ht]
        exact roundedTo_zero _
    · rcases tp with _ | t
      · exact roundedTo_none _
      · by_cases ht : 0 < t
        · simp only [ht, if_pos ht]
          exact roundedTo_roundQ _ _
        · simp only [ht, if_neg ht]
          exact roundedTo_none _
  · simp only [statsFromEff, h, if_neg h, if_false]
    exact ⟨roundedTo_safeRound _ _, roundedTo_safeRound _ _, roundedTo_safeRound _ _,
      roundedTo_safeRound _ _, roundedTo_safeRound _ _, roundedTo_safeRound _ _,
      roundedTo_safeRound _ _, roundedTo_safeRound _ _, roundedTo_safeRound _ _,
      roundedTo_safeRound _ _, roundedTo_safeRound _ _, roundedTo_safeRound _ _,
      roundedTo_safeRound _ _, roundedTo_safeRound _ _, roundedTo_safeRound _ _,
      roundedTo_safeRound _ _, roundedTo_safeRound _ _, roundedTo_safeRound _ _,
      roundedTo_safeRound _ _, roundedTo_safeRound _ _, roundedTo_safeRound _ _,
      roundedTo_safeRound _ _, roundedTo_safeRound _ _, roundedTo_safeRound _ _⟩

/-- C5 as stated is false: `missing_pct` (like `group_pct`) is rounded to
2 decimal places, not 4 — on a 3-row series with one missing entry the
stored percentage is 33.33, not the 4-decimal rounding 33.3333 of the
raw ratio. -/
theorem C5_counterexample :
    (calculate_column_stats oracle0 "v" "v" [some 1, some 2, none] true (95 / 100)
        none).missing_pct = some (3333 / 100)
    ∧ (3333 / 100 : ℚ) ≠ roundQ 4 (100 / 3)
    ∧ (calculate_column_stats oracle0 "v" "v" [some 1, some 2, none] true (95 / 100)
        none).missing_pct ≠ some (roundQ 4 (100 / 3)) := by
  have h1 : (calculate_column_stats oracle0 "v" "v" [some 1, some 2, none] true (95 / 100)
      none).missing_pct = some (3333 / 100) := by
    with_unfolding_all rfl
  have h2 : roundQ 4 (100 / 3) = 333333 / 10000 := by
    with_unfolding_all rfl
  refine ⟨h1, ?_, ?_⟩
  · rw [h2]
    norm_num
  · rw [h1, h2]
    intro hcon
    injection hcon with h3
    norm_num at h3

/-- C5 (amended): every numeric field of a column-statistics record is
produced by safe rounding — `None` passes through and non-finite values
are suppressed to null — at 4 decimal places for every field except
`missing_pct` and `group_pct`, which are rounded to 2 decimal places. -/
theorem C5_safe_rounding (o : SciOracles) (ck cn : String) (s : List (Option ℚ))
    (tz : Bool) (cl : ℚ) (tp : Option ℕ) :
    (∀ (d : ℕ) (v : ℚ), safeRound none d = none ∧ safeRound (some PyF.nf) d = none ∧
      safeRound (some (PyF.fin v)) d = some (roundQ d v))
    ∧ (RoundedTo (calculate_column_stats o ck cn s tz cl tp).mean 4
      ∧ RoundedTo (calculate_column_stats o ck cn s tz cl tp).median 4
      ∧ RoundedTo (calculate_column_stats o ck cn s tz cl tp).mode 4
      ∧ RoundedTo (calculate_column_stats o ck cn s tz cl tp).std 4
      ∧ RoundedTo (calculate_column_stats o ck cn s tz cl tp).variance 4
      ∧ RoundedTo (calculate_column_stats o ck cn s tz cl tp).min 4
      ∧ RoundedTo (calculate_column_stats o ck cn s tz cl tp).max 4
      ∧ RoundedTo (calculate_column_stats o ck cn s tz cl tp).q1 4
      ∧ RoundedTo (calculate_column_stats o ck cn s tz cl tp).q3 4
      ∧ RoundedTo (calculate_column_stats o ck cn s tz cl tp).iqr 4
      ∧ RoundedTo (calculate_column_stats o ck cn s tz cl tp).sem 4
      ∧ RoundedTo (calculate_column_stats o ck cn s tz cl tp).cv 4
      ∧ RoundedTo (calculate_column_stats o ck cn s tz cl tp).range 4
      ∧ RoundedTo (calculate_column_stats o ck cn s tz cl tp).p5 4
      ∧ RoundedTo (calculate_column_stats o ck cn s tz cl tp).p10 4
      ∧ RoundedTo (calculate_column_stats o ck cn s tz cl tp).p90 4
      ∧ RoundedTo (calculate_column_stats o ck cn s tz cl tp).p95 4
      ∧ RoundedTo (calculate_column_stats o ck cn s tz cl tp).skewness 4
      ∧ RoundedTo (calculate_column_stats o ck cn s tz cl tp).kurtosis 4
      ∧ RoundedTo (calculate_column_stats o ck cn s tz cl tp).ci_lower 4
      ∧ RoundedTo (calculate_column_stats o ck cn s tz cl tp).ci_upper 4
      ∧ RoundedTo (calculate_column_stats o ck cn s tz cl tp).sum 4
      ∧ RoundedTo (calculate_column_stats o ck cn s tz cl tp).missing_pct 2
      ∧ RoundedTo (calculate_column_stats o ck cn s tz cl tp).group_pct 2) :=
  ⟨fun _ _ => ⟨rfl, rfl, rfl⟩,
    statsFromEff_rounded o ck cn s.length (countNone s) cl tp (effSeries tz s)⟩

/-! ## Claim C9 -/

/-- C9: a requested column whose post-policy values have zero variance is
dropped from the correlation output entirely; with fewer than two
surviving columns the variable list and matrix are empty; otherwise both
have exactly one entry per surviving column; and every returned
coefficient is an integer multiple of 1/100 (rounded to 2 decimals).
The hypothesis pins the square-root oracle to the real square root's
sign behaviour. -/
theorem C9_correlation_matrix (o : SciOracles) (tz : Bool) (df : Table)
    (varCols : List String) (meta : List (String × String))
    (filters : List FilterCondition)
    (hsq : ∀ q : ℚ, 0 ≤ q → (0 < o.sqrtQ q ↔ 0 < q)) :
    (∀ c ∈ corrValidCols (apply_filters df filters) varCols,
      ssdQ (corrColVals o tz (apply_filters df filters)
          (corrValidCols (apply_filters df filters) varCols) c) = 0 →
        c ∉ corrKeepCols o tz (apply_filters df filters)
          (corrValidCols (apply_filters df filters) varCols))
    ∧ ((corrKeepCols o tz (apply_filters df filters)
          (corrValidCols (apply_filters df filters) varCols)).length < 2 →
        (calculate_correlation_matrix o tz df varCols meta filters).2.1 = []
        ∧ (calculate_correlation_matrix o tz df varCols meta filters).2.2 = [])
    ∧ (2 ≤ (corrKeepCols o tz (apply_filters df filters)
          (corrValidCols (apply_filters df filters) varCols)).length →
        (calculate_correlation_matrix o tz df varCols meta filters).2.1.length =
          (corrKeepCols o tz (apply_filters df filters)
            (corrValidCols (apply_filters df filters) varCols)).length
        ∧ (calculate_correlation_matrix o tz df varCols meta filters).2.2.length =
          (corrKeepCols o tz (apply_filters df filters)
            (corrValidCols (apply_filters df filters) varCols)).length)
    ∧ (∀ row ∈ (calculate_correlation_matrix o tz df varCols meta filters).2.2,
        ∀ e ∈ row, ∃ k : ℤ, e = (k : ℚ) / 100) := by
  refine ⟨?_, ?_, ?_, ?_⟩
  · intro c _ h0 hmem
    have hpred := (List.mem_filter.mp hmem).2
    rw [Bool.and_eq_true] at hpred
    have hgt := hpred.2
    by_cases hlen : 2 ≤ (corrColVals o tz (apply_filters df filters)
        (corrValidCols (apply_filters df filters) varCols) c).length
    · have hstd : pdStd o (corrColVals o tz (apply_filters df filters)
          (corrValidCols (apply_filters df filters) varCols) c) = .fin (o.sqrtQ 0) := by
        simp [pdStd, pdVar, pySqrt, hlen, h0]
      rw [hstd] at hgt
      simp only [pyGtQ, decide_eq_true_eq] at hgt
      exact absurd ((hsq 0 le_rfl).mp hgt) (lt_irrefl 0)
    · have hstd : pdStd o (corrColVals o tz (apply_filters df filters)
          (corrValidCols (apply_filters df filters) varCols) c) = .nf := by
        simp [pdStd, pdVar, pySqrt, hlen]
      rw [hstd] at hgt
      simp [pyGtQ] at hgt
  · intro h
    simp only [calculate_correlation_matrix]
    by_cases hvc : (corrValidCols (apply_filters df filters) varCols).length < 2
    · rw [if_pos hvc]
      exact ⟨rfl, rfl⟩
    · rw [if_neg hvc, if_pos h]
      exact ⟨rfl, rfl⟩
  · intro h
    have hle : (corrKeepCols o tz (apply_filters df filters)
        (corrValidCols (apply_filters df filters) varCols)).length ≤
        (corrValidCols (apply_filters df filters) varCols).length := by
      simpa [corrKeepCols] using
        List.length_filter_le _ (corrValidCols (apply_filters df filters) varCols)
    have hvc : ¬ (corrValidCols (apply_filters df filters) varCols).length < 2 := by
      omega
    have hk : ¬ (corrKeepCols o tz (apply_filters df filters)
        (corrValidCols (apply_filters df filters) varCols)).length < 2 := by
      omega
    simp only [calculate_correlation_matrix]
    rw [if_neg hvc, if_neg hk]
    constructor
    · simp
    · simp
  · intro row hrow e he
    simp only [calculate_correlation_matrix] at hrow
    by_cases hvc : (corrValidCols (apply_filters df filters) varCols).length < 2
    · rw [if_pos hvc] at hrow
      simp at hrow
    · rw [if_neg hvc] at hrow
      by_cases hk : (corrKeepCols o tz (apply_filters df filters)
          (corrValidCols (apply_filters df filters) varCols)).length < 2
      · rw [if_pos hk] at hrow
        simp at hrow
      · rw [if_neg hk] at hrow
        dsimp only at hrow
        obtain ⟨rc, _, rfl⟩ := List.mem_map.mp hrow
        obtain ⟨c, _, rfl⟩ := List.mem_map.mp he
        rcases hp : pearsonPy o (corrColVals o tz (apply_filters df filters)
            (corrValidCols (apply_filters df filters) varCols) rc)
            (corrColVals o tz (apply_filters df filters)
              (corrValidCols (apply_filters df filters) varCols) c) with v | _ <;>
          simp only [hp]
        · exact ⟨rInt (v * 10 ^ 2), by norm_num [roundQ]⟩
        · exact ⟨0, by norm_num⟩

/-- Witness: on a table whose requested columns are a constant and a
single varying column, only one column survives, so the output variable
list is empty. -/
theorem C9_witness :
    (calculate_correlation_matrix oracle0 true exCorrDf ["a", "b"] [] []).2.1 = [] :=
  ((C9_correlation_matrix oracle0 true exCorrDf ["a", "b"] [] []
      (fun q _ => Iff.rfl)).2.1
    (by
      have hkeep : (corrKeepCols oracle0 true (apply_filters exCorrDf [])
          (corrValidCols (apply_filters exCorrDf []) ["a", "b"])).length = 1 := by
        with_unfolding_all rfl
      omega)).1

end Orion
